/-
Verification of the slot-filling dialogue manager in `main.py`
(class `GeminiAssistant`).

The development shallow-embeds the dialogue state machine and its helper
functions.  External collaborators (the Gemini LLM calls for intent
classification, entity extraction and the secondary intent-switch signal,
the `dateutil` date-parsing fallback, and the wall clock) are modelled as
per-turn oracle inputs, matching the spec's treatment of them as black
boxes specified only at their interface boundary.  Dates are modelled as
day numbers (days since 1970-01-01); `strftime('%Y-%m-%d')` is embedded
via the standard days-to-civil-date conversion.  Fallible file writes in
`execute_action` are modelled by boolean failure inputs; an uncaught
Python exception is modelled by an absent response (`Option.none`).
-/
import Mathlib

set_option maxRecDepth 10000

/-! ## String helpers (embedding Python `str.lower`, `str.strip`, `in`) -/

/-- ASCII lower-casing of one character (the inputs relevant here are ASCII;
this embeds Python `str.lower` on them). -/
def lowerChar (c : Char) : Char :=
  if 'A' ≤ c ∧ c ≤ 'Z' then Char.ofNat (c.toNat + 32) else c

/-- Embeds Python `str.lower()`. -/
def strLower (s : String) : String := ⟨s.data.map lowerChar⟩

/-- Whitespace characters stripped by Python `str.strip()`. -/
def isWS (c : Char) : Bool := c == ' ' || c == '\t' || c == '\n' || c == '\r'

/-- Embeds Python `str.strip()`. -/
def strTrim (s : String) : String :=
  ⟨((s.data.dropWhile isWS).reverse.dropWhile isWS).reverse⟩

/-- `needle` is a prefix of `hay` (character lists). -/
def isPrefixL : List Char → List Char → Bool
  | [], _ => true
  | _ :: _, [] => false
  | a :: as, b :: bs => a == b && isPrefixL as bs

/-- `needle` occurs as a contiguous substring of `hay` (character lists). -/
def isInfixL (needle : List Char) (hay : List Char) : Bool :=
  match hay with
  | [] => isPrefixL needle []
  | _ :: t => isPrefixL needle hay || isInfixL needle t

/-- Embeds the Python substring test `needle in hay`. -/
def strContains (hay needle : String) : Bool := isInfixL needle.data hay.data

/-! ## Calendar (embedding `datetime` day arithmetic and `strftime`) -/

/-- `datetime.weekday()` for a day number (days since 1970-01-01, which was
a Thursday): Monday = 0, ..., Sunday = 6. -/
def weekday (z : Nat) : Nat := (z + 3) % 7

/-- Convert a day number (days since 1970-01-01) to `(year, month, day)`,
the standard civil-from-days algorithm. -/
def civilFromDays (z : Nat) : Nat × Nat × Nat :=
  let z' := z + 719468
  let era := z' / 146097
  let doe := z' % 146097
  let yoe := (doe - doe / 1460 + doe / 36524 - doe / 146096) / 365
  let y := yoe + era * 400
  let doy := doe - (365 * yoe + yoe / 4 - yoe / 100)
  let mp := (5 * doy + 2) / 153
  let d := doy - (153 * mp + 2) / 5 + 1
  let m := if mp < 10 then mp + 3 else mp - 9
  (if m ≤ 2 then y + 1 else y, m, d)

/-- Zero-pad a numeral to the given width. -/
def padNum (w : Nat) (n : Nat) : String :=
  let s := toString n
  String.mk (List.replicate (w - s.length) '0') ++ s

/-- Embeds `strftime('%Y-%m-%d')` applied to a day number. -/
def isoOf (z : Nat) : String :=
  match civilFromDays z with
  | (y, m, d) => padNum 4 y ++ "-" ++ padNum 2 m ++ "-" ++ padNum 2 d

/-! ## Field maps (embedding the Python `dict` of entities) -/

/-- An entity map: association list with `dict` insert/overwrite semantics. -/
abbrev Entities := List (String × String)

/-- `dict` lookup (`entities.get(k)`): the binding of `k`, if any. -/
def eget : Entities → String → Option String
  | [], _ => none
  | p :: e, k => if p.1 == k then some p.2 else eget e k

/-- `dict` assignment (`entities[k] = v`): replaces the binding of an
existing key in place (Python dicts keep insertion order), otherwise
appends a new binding. -/
def eset : Entities → String → String → Entities
  | [], k, v => [(k, v)]
  | p :: e, k, v => if p.1 == k then (k, v) :: e else p :: eset e k v

/-- `dict(...)` built by successive assignments (models the parsing loop that
fills an entity dict line by line). -/
def entitiesOfList (l : List (String × String)) : Entities :=
  l.foldl (fun a p => eset a p.1 p.2) []

/-- `base.update(upd)` for dicts: every binding of `upd` is assigned into
`base`, in order. -/
def eupdate (base : Entities) (upd : List (String × String)) : Entities :=
  upd.foldl (fun a p => eset a p.1 p.2) base

/-- Value of the last assignment of key `k` in a raw assignment list. -/
def lookLast : List (String × String) → String → Option String
  | [], _ => none
  | (k', v') :: rest, k =>
    match lookLast rest k with
    | some w => some w
    | none => if k' == k then some v' else none

/-- A field is missing or blank: `not entities.get(f) or not
entities.get(f).strip()`. -/
def isBlank : Option String → Bool
  | none => true
  | some s => s == "" || strTrim s == ""

/-- The filter applied to previously-recorded entity values:
`if value and value != "N/A" and value.strip()`. -/
def validVal (v : String) : Bool := v != "" && v != "N/A" && strTrim v != ""

/-! ## Data model -/

/-- The three intent labels produced by `classify_intent`. -/
inductive Intent where
  | schedule_meeting
  | send_email
  | chitchat
deriving DecidableEq, Repr

/-- One record of the conversation log file written by `save_conversation`
(the session id and timestamp fields carry no dialogue content and are
omitted). -/
structure SavedTurn where
  user_message : String
  assistant_response : String
  intent : Option Intent
  entities : Entities
  awaiting_confirmation : Bool
deriving DecidableEq, Repr

/-- The mutable `conversation_state` dict.  `conversation_context` is never
written with a non-empty value in the source and is omitted. -/
structure ConvState where
  intent : Option Intent
  entities : Entities
  awaiting_confirmation : Bool
  pending_action : Option (Intent × Entities)
  gathering_info : Bool
  missing_fields : List String
deriving DecidableEq, Repr

/-- One record of `conversations/actions.json` written by `save_action`. -/
structure ActionRecord where
  action_type : String
  action_data : List (String × Option String)
  executed : Bool
deriving DecidableEq, Repr

/-- The full per-session persistent picture: dialogue state, the session's
conversation log file, the global action log, and the outbox files. -/
structure Session where
  state : ConvState
  log : List SavedTurn
  actions : List ActionRecord
  outbox : List (List (String × Option String))
deriving DecidableEq, Repr

/-- The freshly-initialised `conversation_state`. -/
def initState : ConvState :=
  { intent := none
    entities := []
    awaiting_confirmation := false
    pending_action := none
    gathering_info := false
    missing_fields := [] }

/-- A fresh session: initial state, empty files. -/
def initialSession : Session :=
  { state := initState, log := [], actions := [], outbox := [] }

/-- `reset_session`: fresh state and a fresh (empty) conversation file; the
global action log and outbox persist. -/
def reset_session (sess : Session) : Session :=
  { sess with state := initState, log := [] }

/-- Per-turn oracle inputs standing for the external collaborators: the
Gemini classification result, the Gemini secondary intent-switch answer,
the parsed Gemini entity-extraction lines (key/value pairs with the values
already stripped, as produced by the response-parsing loop), the current
date (`datetime.now()`), the `dateutil.parser.parse` fallback, and the
outcomes of the two fallible file writes in the action-execution path. -/
structure TurnOracle where
  classify : Intent
  switchLLM : Bool
  extract : List (String × String)
  today : Nat
  dateutil : String → Option Nat
  saveActionFails : Bool
  outboxFails : Bool

/-! ## Date normalizer (`_parse_date`) -/

/-- Embeds `GeminiAssistant._parse_date`.  `today` is the reference day
number; `dateutil_parse` is the external general date-parsing fallback
(`none` means it raised). -/
def parse_date (date_str : String) (today : Nat)
    (dateutil_parse : String → Option Nat) : String :=
  let ds := strTrim (strLower date_str)
  if ds == "today" then isoOf today
  else if ds == "tomorrow" then isoOf (today + 1)
  else if strContains ds "next week" then isoOf (today + 7)
  else if strContains ds "monday" then
    let w : Int := (weekday today : Int)
    let days_ahead : Int := 0 - w
    let days_ahead := if days_ahead ≤ 0 then days_ahead + 7 else days_ahead
    isoOf (today + days_ahead.toNat)
  else
    match dateutil_parse ds with
    | some day => isoOf day
    | none => ds

/-! ## Field schema (`get_missing_fields`, questions, confirmation) -/

/-- Embeds `GeminiAssistant.get_missing_fields`. -/
def get_missing_fields (intent : Intent) (e : Entities) : List String :=
  match intent with
  | .schedule_meeting =>
      (if isBlank (eget e "title") then ["title"] else []) ++
      (if isBlank (eget e "date") then ["date"] else []) ++
      (if isBlank (eget e "time") then ["time"] else []) ++
      (if isBlank (eget e "participants") then ["participants"] else [])
  | .send_email =>
      (if isBlank (eget e "recipient") then ["recipient"] else []) ++
      (if isBlank (eget e "body") then ["body"] else [])
  | .chitchat => []

/-- The meeting question table (`questions.get(field)`). -/
def meeting_questions (f : String) : Option String :=
  if f == "title" then some "What should I call this meeting?"
  else if f == "date" then some "What date would you like to schedule this meeting?"
  else if f == "time" then some "What time should the meeting be?"
  else if f == "participants" then
    some "Who should I invite to this meeting? Please provide their email addresses."
  else none

/-- The email question table (`questions.get(field)`). -/
def email_questions (f : String) : Option String :=
  if f == "recipient" then
    some "Who should I send the email to? Please provide their email address."
  else if f == "body" then some "What should the email say?"
  else none

/-- Embeds `GeminiAssistant.get_next_missing_field_question`. -/
def get_next_missing_field_question (intent : Intent)
    (missing : List String) : Option String :=
  match missing with
  | [] => none
  | f :: _ =>
    match intent with
    | .schedule_meeting => meeting_questions f
    | .send_email => email_questions f
    | .chitchat => none

/-- Embeds `GeminiAssistant.generate_confirmation`. -/
def generate_confirmation (intent : Intent) (e : Entities) : String :=
  match intent with
  | .schedule_meeting =>
      let title := (eget e "title").getD "Meeting"
      let date := (eget e "date").getD "unspecified date"
      let time := (eget e "time").getD "unspecified time"
      let participants := (eget e "participants").getD ""
      "Do you want me to book '" ++ title ++ "' on " ++ date ++ " at " ++ time ++
        (if participants != "" then " with " ++ participants else "") ++ "?"
  | .send_email =>
      let recipient := (eget e "recipient").getD "unspecified recipient"
      let body := (eget e "body").getD "unspecified message"
      let subject := (eget e "subject").getD ""
      "Do you want me to send an email to " ++ recipient ++
        (if subject != "" then " with subject '" ++ subject ++ "'" else "") ++
        " saying: '" ++ body ++ "'?"
  | .chitchat => "Do you want me to proceed with this action?"

/-! ## Intent-switch detector (`detect_intent_change`) -/

/-- Meeting keywords of the fast-path switch rule. -/
def meeting_keywords : List String := ["book", "schedule", "meeting", "appointment", "call"]

/-- Email keywords of the fast-path switch rule. -/
def email_keywords : List String := ["send", "email", "mail", "message"]

/-- Embeds `GeminiAssistant.detect_intent_change`.  `llm_says_switch` is the
secondary Gemini yes/no signal (its value when the keyword fast path does
not fire). -/
def detect_intent_change (user_input : String) (current_intent : Option Intent)
    (llm_says_switch : Bool) : Bool :=
  match current_intent with
  | none => false
  | some cur =>
    match cur with
    | .send_email =>
        if meeting_keywords.any (fun w => strContains (strLower user_input) w) then true
        else llm_says_switch
    | .schedule_meeting =>
        if email_keywords.any (fun w => strContains (strLower user_input) w) then true
        else llm_says_switch
    | .chitchat => llm_says_switch

/-! ## Entity extraction and the cross-turn merge -/

/-- Take the most recent `n` records of the log
(`conversations[-limit:]`). -/
def lastN (n : Nat) (l : List SavedTurn) : List SavedTurn :=
  l.drop (l.length - n)

/-- The `previous_entities` accumulation in
`extract_entities_with_context`: over the history (oldest first), records
of the same intent with a non-empty entity dict contribute each of their
non-blank, non-`"N/A"` values, later records overwriting earlier ones. -/
def previous_entities (hist : List SavedTurn) (intent : Intent) : Entities :=
  hist.foldl
    (fun acc conv =>
      if conv.intent == some intent && !conv.entities.isEmpty then
        conv.entities.foldl
          (fun a p => if validVal p.2 then eset a p.1 p.2 else a) acc
      else acc)
    []

/-- The newly-extracted entity dict for this turn: the parsed Gemini lines
(an oracle input), with a `date` value normalized through `_parse_date` in
the meeting branch; empty for chitchat. -/
def extracted_entities (intent : Intent) (o : TurnOracle) : Entities :=
  match intent with
  | .schedule_meeting =>
      let e := entitiesOfList o.extract
      match eget e "date" with
      | some d => eset e "date" (parse_date d o.today o.dateutil)
      | none => e
  | .send_email => entitiesOfList o.extract
  | .chitchat => []

/-- Embeds `GeminiAssistant.extract_entities_with_context`: merge the
previously recorded fields of the same intent, drawn from the five most
recent log records, with the newly extracted values (new values win). -/
def extract_entities_with_context (log : List SavedTurn) (intent : Intent)
    (o : TurnOracle) : Entities :=
  eupdate (previous_entities (lastN 5 log) intent) (extracted_entities intent o)

/-! ## Action executor (`save_action`, `execute_action`) -/

/-- Python string interpolation of a possibly-`None` value. -/
def pyStr : Option String → String
  | none => "None"
  | some s => s

/-- Outcome of `execute_action`: the records appended to
`conversations/actions.json`, the files written to `outbox/`, and the
returned message (`none` models an uncaught exception escaping the
call). -/
structure ExecResult where
  actionLog : List ActionRecord
  outbox : List (List (String × Option String))
  msg : Option String
deriving Repr

/-- Embeds `GeminiAssistant.execute_action` (with `save_action` inlined).
`save_action` wraps its file update in `try/except`, so `saveActionFails`
only suppresses the log record; the `open(...)`/`json.dump` write to
`outbox/` is not guarded, so `outboxFails` aborts the call before a message
is produced. -/
def execute_action (intent : Option Intent) (e : Entities)
    (saveActionFails outboxFails : Bool) : ExecResult :=
  match intent with
  | some .schedule_meeting =>
      let meeting_data : List (String × Option String) :=
        [("type", some "meeting"),
         ("title", some ((eget e "title").getD "Meeting")),
         ("date", eget e "date"),
         ("time", eget e "time"),
         ("participants", some ((eget e "participants").getD ""))]
      let saved : List ActionRecord :=
        if saveActionFails then [] else [⟨"meeting", meeting_data, true⟩]
      if outboxFails then { actionLog := saved, outbox := [], msg := none }
      else
        { actionLog := saved
          outbox := [meeting_data]
          msg := some ("✅ Meeting '" ++ (eget e "title").getD "Meeting" ++
            "' has been booked for " ++ pyStr (eget e "date") ++ " at " ++
            pyStr (eget e "time") ++ ". Details saved to files.") }
  | some .send_email =>
      let email_data : List (String × Option String) :=
        [("type", some "email"),
         ("recipient", eget e "recipient"),
         ("subject", some ((eget e "subject").getD "No subject")),
         ("body", eget e "body")]
      let saved : List ActionRecord :=
        if saveActionFails then [] else [⟨"email", email_data, true⟩]
      if outboxFails then { actionLog := saved, outbox := [], msg := none }
      else
        { actionLog := saved
          outbox := [email_data]
          msg := some ("✅ Email sent to " ++ pyStr (eget e "recipient") ++
            ". Details saved to files.") }
  | _ => { actionLog := [], outbox := [], msg := some "Action completed." }

/-! ## Chitchat and confirmation-token handling -/

/-- The greeting word set of `_handle_chitchat`. -/
def greetings : List String :=
  ["hello", "hi", "hey", "good morning", "good afternoon", "good evening"]

/-- Embeds `GeminiAssistant._handle_chitchat`. -/
def handle_chitchat (message : String) : String :=
  if greetings.any (fun g => strContains (strLower message) g) then
    "Hello! I can help you schedule meetings or send emails. What would you like to do?"
  else
    "I'm here to help you schedule meetings and send emails. What can I do for you?"

/-- The affirmative confirmation tokens. -/
def affirmative_tokens : List String := ["yes", "y", "confirm", "ok", "okay", "sure"]

/-- The negative confirmation tokens. -/
def negative_tokens : List String := ["no", "n", "cancel", "nevermind"]

/-- `message.lower().strip() in ['yes', ...]`. -/
def isAffirmative (msg : String) : Bool :=
  affirmative_tokens.contains (strTrim (strLower msg))

/-- `message.lower().strip() in ['no', ...]`. -/
def isNegative (msg : String) : Bool :=
  negative_tokens.contains (strTrim (strLower msg))

/-! ## The dialogue state machine (`process_message`) -/

/-- `save_conversation`: append one record to the session's conversation
log file. -/
def save_conversation (sess : Session) (user_message assistant_response : String)
    (intent : Option Intent) (entities : Entities) (awaiting : Bool) : Session :=
  { sess with log := sess.log ++
      [{ user_message := user_message
         assistant_response := assistant_response
         intent := intent
         entities := entities
         awaiting_confirmation := awaiting }] }

/-- The affirmative-confirmation branch of `process_message`: execute the
pending action with the committed intent and current fields, log the turn,
and fully reset the state.  If the executor raises (no message), the
exception escapes: no log record is written and the state is untouched,
but any file writes that already happened persist. -/
def confirmYes (sess : Session) (msg : String) (o : TurnOracle) :
    Option String × Session :=
  let r := execute_action sess.state.intent sess.state.entities
             o.saveActionFails o.outboxFails
  let sess' := { sess with
    actions := sess.actions ++ r.actionLog
    outbox := sess.outbox ++ r.outbox }
  match r.msg with
  | none => (none, sess')
  | some result =>
      let sess'' := save_conversation sess' msg result sess.state.intent
                      sess.state.entities false
      (some result, { sess'' with state := initState })

/-- The negative-confirmation branch of `process_message`: acknowledge the
cancellation, log the turn, and fully reset the state. -/
def confirmNo (sess : Session) (msg : String) : Option String × Session :=
  let response := "Action cancelled. How else can I help you?"
  let sess' := save_conversation sess msg response none [] false
  (some response, { sess' with state := initState })

/-- Classification and the subsequent chitchat / gathering / confirmation
handling of `process_message` (everything after the intent-switch
check). -/
def classifyAndRespond (sess : Session) (msg : String) (o : TurnOracle) :
    Option String × Session :=
  let intent := o.classify
  match intent with
  | .chitchat =>
      let st := { sess.state with intent := some Intent.chitchat }
      let response := handle_chitchat msg
      (some response,
       save_conversation { sess with state := st } msg response
         (some Intent.chitchat) [] false)
  | i =>
      let entities := extract_entities_with_context sess.log i o
      let missing := get_missing_fields i entities
      match (if missing.isEmpty then none
             else get_next_missing_field_question i missing) with
      | some q =>
          let st := { sess.state with
            intent := some i
            entities := entities
            missing_fields := missing
            gathering_info := true }
          (some q,
           save_conversation { sess with state := st } msg q (some i) entities false)
      | none =>
          let conf := generate_confirmation i entities
          let st := { sess.state with
            intent := some i
            entities := entities
            missing_fields := missing
            gathering_info := false
            awaiting_confirmation := true
            pending_action := some (i, entities) }
          (some conf,
           save_conversation { sess with state := st } msg conf (some i) entities true)

/-- The intent-switch check and everything after it: if a task is in
progress and the detector fires, hard-reset the dialogue state (the log
file persists) and continue with the same input text. -/
def processFresh (sess : Session) (msg : String) (o : TurnOracle) :
    Option String × Session :=
  let sess1 :=
    if sess.state.intent.isSome &&
       (sess.state.gathering_info || sess.state.awaiting_confirmation) &&
       detect_intent_change msg sess.state.intent o.switchLLM then
      { sess with state := initState }
    else sess
  classifyAndRespond sess1 msg o

/-- Embeds `GeminiAssistant.process_message`: one full turn.  The returned
response is `none` when an uncaught exception escapes the turn. -/
def process_message (sess : Session) (msg : String) (o : TurnOracle) :
    Option String × Session :=
  if sess.state.awaiting_confirmation && isAffirmative msg then
    confirmYes sess msg o
  else if sess.state.awaiting_confirmation && isNegative msg then
    confirmNo sess msg
  else
    processFresh sess msg o

/-- Run a list of turns (message plus oracle inputs) from a session. -/
def runTurns (sess : Session) (ts : List (String × TurnOracle)) : Session :=
  ts.foldl (fun s t => (process_message s t.1 t.2).2) sess

/-- The sessions reachable from a fresh session by processing turns (with
arbitrary external-collaborator behaviour) and by session resets. -/
inductive Reachable : Session → Prop
  | init : Reachable initialSession
  | step {s : Session} (msg : String) (o : TurnOracle) :
      Reachable s → Reachable (process_message s msg o).2
  | reset {s : Session} : Reachable s → Reachable (reset_session s)


/-! ## Lemmas about the entity maps -/

/-- Dict-assignment lookup: the assigned key reads back the new value, other
keys are unchanged. -/
theorem eget_eset (e : Entities) (k v k' : String) :
    eget (eset e k v) k' = if k = k' then some v else eget e k' := by
  induction e with
  | nil =>
    simp only [eset, eget]
    by_cases h : k = k' <;> simp [h]
  | cons p e ih =>
    by_cases hp : p.1 = k
    · simp only [eset, if_pos (by simp [hp] : (p.1 == k) = true), eget]
      by_cases h : k = k'
      · simp [h]
      · simp [h, show ¬ p.1 = k' by simp [hp, h], eget]
    · simp only [eset, if_neg (by simp [hp] : ¬ (p.1 == k) = true), eget]
      by_cases hq : p.1 = k'
      · have hkk : ¬ k = k' := fun he => hp (hq.trans he.symm)
        simp [hq, hkk]
      · simp only [if_neg (by simp [hq] : ¬ (p.1 == k') = true), ih]

/-- Folding dict assignments over a raw assignment list: the last
assignment of a key wins, otherwise the base map answers. -/
theorem eget_foldl_eset (u : List (String × String)) (b : Entities) (k : String) :
    eget (u.foldl (fun a p => eset a p.1 p.2) b) k =
      match lookLast u k with
      | some w => some w
      | none => eget b k := by
  induction u generalizing b with
  | nil => rfl
  | cons q u ih =>
    simp only [List.foldl_cons, lookLast, ih, eget_eset]
    cases lookLast u k with
    | some w => rfl
    | none =>
      by_cases h : q.1 = k <;> simp [h]

theorem eget_eupdate (b : Entities) (u : List (String × String)) (k : String) :
    eget (eupdate b u) k =
      match lookLast u k with
      | some w => some w
      | none => eget b k :=
  eget_foldl_eset u b k

/-- The keys of an entity map, for well-formedness. -/
def keysNodup (e : Entities) : Prop := (e.map Prod.fst).Nodup

theorem keysNodup_nil : keysNodup [] := List.nodup_nil

theorem mem_keys_eset (e : Entities) (k v k' : String)
    (h : k' ∈ (eset e k v).map Prod.fst) : k' ∈ e.map Prod.fst ∨ k' = k := by
  induction e with
  | nil => simp [eset] at h; simp [h]
  | cons p e ih =>
    by_cases hp : p.1 = k
    · simp only [eset, if_pos (by simp [hp] : (p.1 == k) = true)] at h
      simp only [List.map_cons, List.mem_cons] at h ⊢
      rcases h with h | h
      · right; exact h
      · left; right; exact h
    · simp only [eset, if_neg (by simp [hp] : ¬ (p.1 == k) = true)] at h
      simp only [List.map_cons, List.mem_cons] at h ⊢
      rcases h with h | h
      · left; left; exact h
      · rcases ih h with h' | h'
        · left; right; exact h'
        · right; exact h'

theorem keysNodup_eset (e : Entities) (k v : String) (h : keysNodup e) :
    keysNodup (eset e k v) := by
  induction e with
  | nil => simp [keysNodup, eset]
  | cons p e ih =>
    simp only [keysNodup, List.map_cons, List.nodup_cons] at h
    by_cases hp : p.1 = k
    · simp only [eset, if_pos (by simp [hp] : (p.1 == k) = true), keysNodup,
        List.map_cons, List.nodup_cons]
      exact ⟨by rw [← hp]; exact h.1, h.2⟩
    · simp only [eset, if_neg (by simp [hp] : ¬ (p.1 == k) = true), keysNodup,
        List.map_cons, List.nodup_cons]
      refine ⟨fun hmem => ?_, ih h.2⟩
      rcases mem_keys_eset e k v p.1 hmem with h' | h'
      · exact h.1 h'
      · exact hp h'

theorem keysNodup_foldl_eset (u : List (String × String)) (b : Entities)
    (h : keysNodup b) : keysNodup (u.foldl (fun a p => eset a p.1 p.2) b) := by
  induction u generalizing b with
  | nil => exact h
  | cons q u ih => exact ih _ (keysNodup_eset b q.1 q.2 h)

theorem keysNodup_entitiesOfList (l : List (String × String)) :
    keysNodup (entitiesOfList l) :=
  keysNodup_foldl_eset l [] keysNodup_nil

theorem lookLast_mem_keys (u : List (String × String)) (k : String) (w : String)
    (h : lookLast u k = some w) : k ∈ u.map Prod.fst := by
  induction u generalizing w with
  | nil => simp [lookLast] at h
  | cons q u ih =>
    simp only [lookLast] at h
    simp only [List.map_cons, List.mem_cons]
    cases hq : lookLast u k with
    | some w' =>
      exact Or.inr (ih w' hq)
    | none =>
      rw [hq] at h
      by_cases hk : q.1 = k
      · exact Or.inl hk.symm
      · simp [hk] at h

/-- On a map with unique keys, the last and the first binding of a key
agree. -/
theorem lookLast_eq_eget (e : Entities) (k : String) (h : keysNodup e) :
    lookLast e k = eget e k := by
  induction e with
  | nil => rfl
  | cons q e ih =>
    simp only [keysNodup, List.map_cons, List.nodup_cons] at h
    cases hq : lookLast e k with
    | some w =>
      have hk : k ∈ e.map Prod.fst := lookLast_mem_keys e k w hq
      have hqk : ¬ q.1 = k := fun he => h.1 (he ▸ hk)
      simp only [lookLast, eget, hq, if_neg (by simp [hqk] : ¬ (q.1 == k) = true)]
      rw [← ih h.2, hq]
    | none =>
      by_cases hk : q.1 = k
      · simp only [lookLast, eget, hq, if_pos (by simp [hk] : (q.1 == k) = true)]
      · simp only [lookLast, eget, hq, if_neg (by simp [hk] : ¬ (q.1 == k) = true)]
        rw [← ih h.2, hq]

/-! ## Characterizing the cross-turn merge -/

/-- The assignments a single log record contributes to
`previous_entities`. -/
def turnContrib (i : Intent) (conv : SavedTurn) : List (String × String) :=
  if conv.intent == some i && !conv.entities.isEmpty then
    conv.entities.filter (fun p => validVal p.2)
  else []

/-- The value recorded for field `F` at the most recent log record of
intent `i` that carries a valid value for `F` (the specification's "most
recent prior turn of that intent where F was present"). -/
def lastValid : List SavedTurn → Intent → String → Option String
  | [], _, _ => none
  | conv :: rest, i, F =>
    match lastValid rest i F with
    | some v => some v
    | none => lookLast (turnContrib i conv) F

theorem foldl_validVal_eq_filter (ents : List (String × String)) (acc : Entities) :
    ents.foldl (fun a p => if validVal p.2 then eset a p.1 p.2 else a) acc =
      (ents.filter (fun p => validVal p.2)).foldl (fun a p => eset a p.1 p.2) acc := by
  induction ents generalizing acc with
  | nil => rfl
  | cons p ents ih =>
    cases hv : validVal p.2 <;> simp [List.filter_cons, hv, ih]

theorem previous_entities_eq_foldl_aux (hist : List SavedTurn) (i : Intent)
    (acc : Entities) :
    hist.foldl
      (fun acc conv =>
        if conv.intent == some i && !conv.entities.isEmpty then
          conv.entities.foldl
            (fun a p => if validVal p.2 then eset a p.1 p.2 else a) acc
        else acc)
      acc =
    (hist.flatMap (turnContrib i)).foldl (fun a p => eset a p.1 p.2) acc := by
  induction hist generalizing acc with
  | nil => rfl
  | cons conv rest ih =>
    simp only [List.foldl_cons, List.flatMap_cons, List.foldl_append, ih]
    by_cases hc : (conv.intent == some i && !conv.entities.isEmpty) = true
    · simp only [if_pos hc, turnContrib, if_pos hc, foldl_validVal_eq_filter]
    · simp only [if_neg hc, turnContrib, if_neg hc, List.foldl_nil]

theorem previous_entities_eq_foldl (hist : List SavedTurn) (i : Intent) :
    previous_entities hist i =
      (hist.flatMap (turnContrib i)).foldl (fun a p => eset a p.1 p.2) [] :=
  previous_entities_eq_foldl_aux hist i []

theorem lookLast_append (a b : List (String × String)) (k : String) :
    lookLast (a ++ b) k =
      match lookLast b k with
      | some w => some w
      | none => lookLast a k := by
  induction a with
  | nil =>
    simp only [List.nil_append]
    cases lookLast b k <;> rfl
  | cons q a ih =>
    simp only [List.cons_append, lookLast, List.append_eq, ih]
    cases lookLast b k <;> rfl

theorem lookLast_flatMap_contrib (hist : List SavedTurn) (i : Intent) (F : String) :
    lookLast (hist.flatMap (turnContrib i)) F = lastValid hist i F := by
  induction hist with
  | nil => rfl
  | cons conv rest ih =>
    simp only [List.flatMap_cons, lookLast_append, ih, lastValid]

theorem eget_previous_entities (hist : List SavedTurn) (i : Intent) (F : String) :
    eget (previous_entities hist i) F = lastValid hist i F := by
  rw [previous_entities_eq_foldl, eget_foldl_eset, lookLast_flatMap_contrib]
  cases lastValid hist i F <;> rfl

theorem keysNodup_extracted (i : Intent) (o : TurnOracle) :
    keysNodup (extracted_entities i o) := by
  cases i with
  | schedule_meeting =>
    simp only [extracted_entities]
    cases eget (entitiesOfList o.extract) "date" with
    | some d => exact keysNodup_eset _ _ _ (keysNodup_entitiesOfList _)
    | none => exact keysNodup_entitiesOfList _
  | send_email => exact keysNodup_entitiesOfList _
  | chitchat => exact keysNodup_nil

/-- The cross-turn merge, field by field: the newly extracted value wins,
otherwise the most recent recorded value of the same intent among the five
most recent log records. -/
theorem eget_merge (log : List SavedTurn) (i : Intent) (o : TurnOracle) (F : String) :
    eget (extract_entities_with_context log i o) F =
      match eget (extracted_entities i o) F with
      | some v => some v
      | none => lastValid (lastN 5 log) i F := by
  rw [show extract_entities_with_context log i o =
        eupdate (previous_entities (lastN 5 log) i) (extracted_entities i o) from rfl,
      eget_eupdate, lookLast_eq_eget _ _ (keysNodup_extracted i o),
      eget_previous_entities]

/-! ## Lemmas about the field schema -/

theorem get_missing_fields_meeting (e : Entities) :
    get_missing_fields .schedule_meeting e =
      ["title", "date", "time", "participants"].filter (fun f => isBlank (eget e f)) := by
  cases h1 : isBlank (eget e "title") <;> cases h2 : isBlank (eget e "date") <;>
    cases h3 : isBlank (eget e "time") <;> cases h4 : isBlank (eget e "participants") <;>
    simp [get_missing_fields, List.filter_cons, h1, h2, h3, h4]

theorem get_missing_fields_email (e : Entities) :
    get_missing_fields .send_email e =
      ["recipient", "body"].filter (fun f => isBlank (eget e f)) := by
  cases h1 : isBlank (eget e "recipient") <;> cases h2 : isBlank (eget e "body") <;>
    simp [get_missing_fields, List.filter_cons, h1, h2]

/-- When some required field is missing, the question for the first missing
field exists. -/
theorem get_next_question_isSome (i : Intent) (e : Entities)
    (h : ¬ get_missing_fields i e = []) :
    (get_next_missing_field_question i (get_missing_fields i e)).isSome = true := by
  cases hm : get_missing_fields i e with
  | nil => exact absurd hm h
  | cons f rest =>
    have hf : f ∈ get_missing_fields i e := by
      rw [hm]; exact List.mem_cons_self f rest
    cases i with
    | schedule_meeting =>
      rw [get_missing_fields_meeting] at hf
      have hf' : f ∈ ["title", "date", "time", "participants"] :=
        List.mem_of_mem_filter hf
      simp only [List.mem_cons, List.not_mem_nil, or_false] at hf'
      rcases hf' with rfl | rfl | rfl | rfl <;> rfl
    | send_email =>
      rw [get_missing_fields_email] at hf
      have hf' : f ∈ ["recipient", "body"] := List.mem_of_mem_filter hf
      simp only [List.mem_cons, List.not_mem_nil, or_false] at hf'
      rcases hf' with rfl | rfl <;> rfl
    | chitchat => simp [get_missing_fields] at hm

/-! ## The C1 invariant: an unambiguous awaiting-confirmation state has no
missing field -/

/-- When `awaiting_confirmation` is set and `gathering_info` is clear, the
recomputed missing-field list of the committed intent is empty. -/
def InvC1 (st : ConvState) : Prop :=
  st.awaiting_confirmation = true → st.gathering_info = false →
    ∀ i, st.intent = some i → get_missing_fields i st.entities = []

theorem invC1_initState : InvC1 initState := by
  intro h1
  simp [initState] at h1

theorem invC1_classifyAndRespond (sess : Session) (msg : String) (o : TurnOracle) :
    InvC1 (classifyAndRespond sess msg o).2.state := by
  cases hc : o.classify with
  | chitchat =>
    simp only [classifyAndRespond, hc, save_conversation]
    intro h1 h2 i hi
    simp only at hi
    cases hi
    rfl
  | schedule_meeting =>
    simp only [classifyAndRespond, hc, save_conversation]
    split
    · intro h1 h2
      simp only at h2
      cases h2
    · next hnone =>
      intro h1 h2 i hi
      simp only at hi
      cases hi
      simp only
      by_cases hempty :
          (get_missing_fields .schedule_meeting
            (extract_entities_with_context sess.log .schedule_meeting o)).isEmpty = true
      · exact List.isEmpty_iff.mp hempty
      · rw [if_neg hempty] at hnone
        have := get_next_question_isSome .schedule_meeting
          (extract_entities_with_context sess.log .schedule_meeting o)
          (fun he => hempty (by simp [he]))
        rw [hnone] at this
        cases this
  | send_email =>
    simp only [classifyAndRespond, hc, save_conversation]
    split
    · intro h1 h2
      simp only at h2
      cases h2
    · next hnone =>
      intro h1 h2 i hi
      simp only at hi
      cases hi
      simp only
      by_cases hempty :
          (get_missing_fields .send_email
            (extract_entities_with_context sess.log .send_email o)).isEmpty = true
      · exact List.isEmpty_iff.mp hempty
      · rw [if_neg hempty] at hnone
        have := get_next_question_isSome .send_email
          (extract_entities_with_context sess.log .send_email o)
          (fun he => hempty (by simp [he]))
        rw [hnone] at this
        cases this

theorem invC1_process_message (sess : Session) (msg : String) (o : TurnOracle)
    (ih : InvC1 sess.state) : InvC1 (process_message sess msg o).2.state := by
  by_cases hy : (sess.state.awaiting_confirmation && isAffirmative msg) = true
  · simp only [process_message, if_pos hy, confirmYes]
    cases hr : (execute_action sess.state.intent sess.state.entities
        o.saveActionFails o.outboxFails).msg with
    | none => simpa only [hr] using ih
    | some r =>
      simp only [hr, save_conversation]
      intro h1
      simp only [initState] at h1
      cases h1
  · simp only [process_message, if_neg hy]
    by_cases hn : (sess.state.awaiting_confirmation && isNegative msg) = true
    · simp only [if_pos hn, confirmNo, save_conversation]
      intro h1
      simp only [initState] at h1
      cases h1
    · simp only [if_neg hn, processFresh]
      exact invC1_classifyAndRespond _ msg o

theorem invC1_reachable (s : Session) (h : Reachable s) : InvC1 s.state := by
  induction h with
  | init => exact invC1_initState
  | step msg o hr ih => exact invC1_process_message _ msg o ih
  | reset hr ih => exact invC1_initState

/-! ## The C5 invariant: no committed intent forces the idle mode flags -/

/-- A state with no committed intent has both mode flags clear. -/
def InvC5 (st : ConvState) : Prop :=
  st.intent = none → st.gathering_info = false ∧ st.awaiting_confirmation = false

theorem invC5_initState : InvC5 initState := fun _ => ⟨rfl, rfl⟩

theorem invC5_classifyAndRespond (sess : Session) (msg : String) (o : TurnOracle) :
    InvC5 (classifyAndRespond sess msg o).2.state := by
  cases hc : o.classify with
  | chitchat =>
    simp only [classifyAndRespond, hc, save_conversation]
    intro hi
    cases hi
  | schedule_meeting =>
    simp only [classifyAndRespond, hc, save_conversation]
    split <;> (intro hi; cases hi)
  | send_email =>
    simp only [classifyAndRespond, hc, save_conversation]
    split <;> (intro hi; cases hi)

theorem invC5_process_message (sess : Session) (msg : String) (o : TurnOracle)
    (ih : InvC5 sess.state) : InvC5 (process_message sess msg o).2.state := by
  by_cases hy : (sess.state.awaiting_confirmation && isAffirmative msg) = true
  · simp only [process_message, if_pos hy, confirmYes]
    cases hr : (execute_action sess.state.intent sess.state.entities
        o.saveActionFails o.outboxFails).msg with
    | none => simpa only [hr] using ih
    | some r =>
      simp only [hr, save_conversation]
      exact invC5_initState
  · simp only [process_message, if_neg hy]
    by_cases hn : (sess.state.awaiting_confirmation && isNegative msg) = true
    · simp only [if_pos hn, confirmNo, save_conversation]
      exact invC5_initState
    · simp only [if_neg hn, processFresh]
      exact invC5_classifyAndRespond _ msg o

theorem invC5_reachable (s : Session) (h : Reachable s) : InvC5 s.state := by
  induction h with
  | init => exact invC5_initState
  | step msg o hr ih => exact invC5_process_message _ msg o ih
  | reset hr ih => exact invC5_initState

/-- Turns run from a reachable session stay reachable. -/
theorem reachable_runTurns (s : Session) (h : Reachable s)
    (ts : List (String × TurnOracle)) : Reachable (runTurns s ts) := by
  induction ts generalizing s with
  | nil => exact h
  | cons t ts ih => exact ih _ (Reachable.step t.1 t.2 h)

/-! ## Concrete sessions and oracle instances used in the examples -/

/-- A `dateutil` fallback that always raises. -/
def noDateutil : String → Option Nat := fun _ => none

/-- Turn oracle: classified `send_email`, full extraction, all writes
succeed; reference date 2024-03-04. -/
def oracleEmailFull : TurnOracle :=
  { classify := .send_email
    switchLLM := false
    extract := [("recipient", "sam@example.com"), ("body", "hello")]
    today := 19786
    dateutil := noDateutil
    saveActionFails := false
    outboxFails := false }

/-- Turn oracle: classified `schedule_meeting`, empty extraction. -/
def oracleMeetingEmpty : TurnOracle :=
  { oracleEmailFull with classify := .schedule_meeting, extract := [] }

/-- Turn oracle: classified `schedule_meeting`, extracting only a title. -/
def oracleMeetingTitle : TurnOracle :=
  { oracleEmailFull with
    classify := .schedule_meeting, extract := [("title", "Budget review")] }

/-- Turn oracle: classified `chitchat`. -/
def oracleChitchat : TurnOracle :=
  { oracleEmailFull with classify := .chitchat, extract := [] }

/-- Turn oracle: classified `send_email`, extracting only a body. -/
def oracleEmailBody : TurnOracle :=
  { oracleEmailFull with extract := [("body", "bye")] }

/-- After one fully-extracted email turn: awaiting confirmation for
`send_email` with recipient and body filled. -/
def sessionAwaitingEmail : Session :=
  (process_message initialSession "please send an email to sam" oracleEmailFull).2

/-- After one partially-extracted email turn: gathering for `send_email`
with the recipient missing. -/
def sessionGatheringEmail : Session :=
  (process_message initialSession "send an email saying bye" oracleEmailBody).2

/-! ## Confirmation tokens are disjoint -/

theorem not_affirmative_of_negative (msg : String) (h : isNegative msg = true) :
    isAffirmative msg = false := by
  simp only [isNegative, negative_tokens, List.contains_cons, List.contains_nil,
    Bool.or_eq_true, beq_iff_eq] at h
  simp only [isAffirmative, affirmative_tokens, List.contains_cons, List.contains_nil,
    Bool.or_eq_true, beq_iff_eq]
  rcases h with h | h | h | h | h <;> simp_all

/-! ## Claim C1 -/

/-- **C1** (counterexample): a reachable state whose `awaiting_confirmation`
flag is set while the recomputed missing-field list of the committed intent
is non-empty.  From an awaiting-confirmation state for `send_email`, the
unrecognized reply "maybe" (no switch signalled, classified as
`schedule_meeting`, empty extraction) enters the gathering branch, which
never clears `awaiting_confirmation`. -/
theorem C1_counterexample :
    Reachable (process_message sessionAwaitingEmail "maybe" oracleMeetingEmpty).2 ∧
    (process_message sessionAwaitingEmail "maybe" oracleMeetingEmpty).2.state.awaiting_confirmation
      = true ∧
    (process_message sessionAwaitingEmail "maybe" oracleMeetingEmpty).2.state.intent
      = some Intent.schedule_meeting ∧
    get_missing_fields Intent.schedule_meeting
      (process_message sessionAwaitingEmail "maybe" oracleMeetingEmpty).2.state.entities
      = ["title", "date", "time", "participants"] :=
  ⟨Reachable.step "maybe" oracleMeetingEmpty
     (Reachable.step "please send an email to sam" oracleEmailFull Reachable.init),
   by decide, by decide, by decide⟩

/-- **C1** (amended): in every reachable state in which the
`awaiting_confirmation` flag is set and the `gathering_info` flag is clear
(the mode is unambiguously awaiting-confirmation), the recomputed
missing-field list for the committed intent is empty, i.e. every required
field of the committed intent is present with a non-blank value. -/
theorem C1_awaiting_missing_empty (s : Session) (h : Reachable s)
    (h1 : s.state.awaiting_confirmation = true)
    (h2 : s.state.gathering_info = false)
    (i : Intent) (hi : s.state.intent = some i) :
    get_missing_fields i s.state.entities = [] :=
  invC1_reachable s h h1 h2 i hi

theorem C1_witness :
    get_missing_fields Intent.send_email sessionAwaitingEmail.state.entities = [] :=
  C1_awaiting_missing_empty sessionAwaitingEmail
    (Reachable.step "please send an email to sam" oracleEmailFull Reachable.init)
    (by decide) (by decide) Intent.send_email (by decide)

/-! ## Claim C5 -/

/-- **C5** (counterexample): after a chitchat turn from the fresh (idle)
session, the mode flags are still clear but `committed_intent` has been
set to `chitchat`, not left as none — refuting `mode == idle` ⟺
`committed_intent == none`. -/
theorem C5_counterexample :
    Reachable (process_message initialSession "hello" oracleChitchat).2 ∧
    (process_message initialSession "hello" oracleChitchat).2.state.gathering_info = false ∧
    (process_message initialSession "hello" oracleChitchat).2.state.awaiting_confirmation
      = false ∧
    (process_message initialSession "hello" oracleChitchat).2.state.intent
      = some Intent.chitchat ∧
    some Intent.chitchat ≠ (none : Option Intent) :=
  ⟨Reachable.step "hello" oracleChitchat Reachable.init,
   by decide, by decide, by decide, by decide⟩

/-- **C5** (amended): in every reachable state, `committed_intent = none`
implies the mode is idle (both flags clear); and a turn classified as
chitchat from an idle state leaves the mode idle but sets
`committed_intent` to `chitchat` rather than none. -/
theorem C5_idle_of_no_intent :
    (∀ s : Session, Reachable s → s.state.intent = none →
       s.state.gathering_info = false ∧ s.state.awaiting_confirmation = false) ∧
    (∀ (sess : Session) (msg : String) (o : TurnOracle),
       o.classify = .chitchat →
       sess.state.gathering_info = false →
       sess.state.awaiting_confirmation = false →
       (process_message sess msg o).2.state.gathering_info = false ∧
       (process_message sess msg o).2.state.awaiting_confirmation = false ∧
       (process_message sess msg o).2.state.intent = some Intent.chitchat) := by
  constructor
  · intro s h hi
    exact invC5_reachable s h hi
  · intro sess msg o hc hg ha
    simp only [process_message, ha, Bool.false_and, Bool.false_eq_true, if_false,
      processFresh, hg, Bool.or_self, Bool.and_false, Bool.false_and,
      classifyAndRespond, hc, save_conversation]
    exact ⟨trivial, trivial, trivial⟩

theorem C5_witness :
    (initialSession.state.gathering_info = false ∧
     initialSession.state.awaiting_confirmation = false) ∧
    ((process_message initialSession "hi there" oracleChitchat).2.state.gathering_info
       = false ∧
     (process_message initialSession "hi there" oracleChitchat).2.state.awaiting_confirmation
       = false ∧
     (process_message initialSession "hi there" oracleChitchat).2.state.intent
       = some Intent.chitchat) :=
  ⟨C5_idle_of_no_intent.1 initialSession Reachable.init (by decide),
   C5_idle_of_no_intent.2 initialSession "hi there" oracleChitchat rfl
     (by decide) (by decide)⟩

/-! ## Claim C2 -/

/-- **C2**: in an awaiting-confirmation state, an affirmative token invokes
the action executor on the committed intent and current fields, returns
its message, and resets the state to idle with empty fields; a negative
token returns the cancellation acknowledgment and resets likewise; any
other turn is neither executed nor cancelled and proceeds to the
intent-switch check and fresh intent classification. -/
theorem C2_confirmation_turns :
    (∀ (sess : Session) (msg : String) (o : TurnOracle) (r : String),
       sess.state.awaiting_confirmation = true →
       isAffirmative msg = true →
       (execute_action sess.state.intent sess.state.entities
          o.saveActionFails o.outboxFails).msg = some r →
       (process_message sess msg o).1 = some r ∧
       (process_message sess msg o).2.state = initState) ∧
    (∀ (sess : Session) (msg : String) (o : TurnOracle),
       sess.state.awaiting_confirmation = true →
       isNegative msg = true →
       (process_message sess msg o).1 =
         some "Action cancelled. How else can I help you?" ∧
       (process_message sess msg o).2.state = initState) ∧
    (∀ (sess : Session) (msg : String) (o : TurnOracle),
       isAffirmative msg = false →
       isNegative msg = false →
       process_message sess msg o = processFresh sess msg o) := by
  refine ⟨?_, ?_, ?_⟩
  · intro sess msg o r h1 h2 hr
    simp only [process_message, h1, h2, Bool.and_self, if_pos, confirmYes, hr,
      save_conversation]
    refine ⟨?_, ?_⟩ <;> first | rfl | trivial
  · intro sess msg o h1 h2
    have h2' : isAffirmative msg = false := not_affirmative_of_negative msg h2
    simp only [process_message, h1, h2, h2', Bool.and_false, Bool.and_self,
      Bool.false_eq_true, if_false, if_pos, confirmNo, save_conversation]
    refine ⟨?_, ?_⟩ <;> first | rfl | trivial
  · intro sess msg o h1 h2
    simp only [process_message, h1, h2, Bool.and_false, Bool.false_eq_true, if_false]

theorem C2_witness :
    ((process_message sessionAwaitingEmail "yes" oracleChitchat).1 =
       some "✅ Email sent to sam@example.com. Details saved to files." ∧
     (process_message sessionAwaitingEmail "yes" oracleChitchat).2.state = initState) ∧
    ((process_message sessionAwaitingEmail "no" oracleChitchat).1 =
       some "Action cancelled. How else can I help you?" ∧
     (process_message sessionAwaitingEmail "no" oracleChitchat).2.state = initState) ∧
    process_message sessionAwaitingEmail "maybe" oracleMeetingEmpty =
      processFresh sessionAwaitingEmail "maybe" oracleMeetingEmpty :=
  ⟨C2_confirmation_turns.1 sessionAwaitingEmail "yes" oracleChitchat _
     (by decide) (by decide) (by decide),
   C2_confirmation_turns.2.1 sessionAwaitingEmail "no" oracleChitchat
     (by decide) (by decide),
   C2_confirmation_turns.2.2 sessionAwaitingEmail "maybe" oracleMeetingEmpty
     (by decide) (by decide)⟩

/-! ## Claim C4 -/

/-- **C4**: the intent-switch detector returns false with no current
intent; it returns true immediately on the keyword fast path
(`send_email` with a meeting keyword, `schedule_meeting` with an email
keyword), whatever the secondary signal; and whenever a task is in
progress (gathering, or awaiting confirmation with a turn that is not a
recognized yes/no token) and the detector signals true, the dialogue state
is hard-reset, discarding all in-progress fields, and the same input text
is reclassified as a fresh intent within the same turn. -/
theorem C4_intent_switch :
    (∀ (msg : String) (llm : Bool), detect_intent_change msg none llm = false) ∧
    (∀ (msg : String) (llm : Bool),
       meeting_keywords.any (fun w => strContains (strLower msg) w) = true →
       detect_intent_change msg (some .send_email) llm = true) ∧
    (∀ (msg : String) (llm : Bool),
       email_keywords.any (fun w => strContains (strLower msg) w) = true →
       detect_intent_change msg (some .schedule_meeting) llm = true) ∧
    (∀ (sess : Session) (msg : String) (o : TurnOracle),
       sess.state.intent.isSome = true →
       (sess.state.gathering_info || sess.state.awaiting_confirmation) = true →
       (sess.state.awaiting_confirmation && isAffirmative msg) = false →
       (sess.state.awaiting_confirmation && isNegative msg) = false →
       detect_intent_change msg sess.state.intent o.switchLLM = true →
       process_message sess msg o =
         classifyAndRespond { sess with state := initState } msg o) := by
  refine ⟨?_, ?_, ?_, ?_⟩
  · intro msg llm; rfl
  · intro msg llm h; simp [detect_intent_change, h]
  · intro msg llm h; simp [detect_intent_change, h]
  · intro sess msg o h1 h2 h3 h4 h5
    simp only [process_message, h3, h4, Bool.false_eq_true, if_false,
      processFresh, h1, h2, h5, Bool.and_self, if_pos]

theorem C4_witness :
    detect_intent_change "actually, book a meeting with Sam tomorrow at 3pm"
      (some Intent.send_email) false = true ∧
    detect_intent_change "book a meeting" none true = false ∧
    process_message sessionGatheringEmail
        "actually, book a meeting with Sam tomorrow at 3pm" oracleMeetingEmpty =
      classifyAndRespond { sessionGatheringEmail with state := initState }
        "actually, book a meeting with Sam tomorrow at 3pm" oracleMeetingEmpty :=
  ⟨C4_intent_switch.2.1 "actually, book a meeting with Sam tomorrow at 3pm" false
     (by decide),
   C4_intent_switch.1 "book a meeting" true,
   C4_intent_switch.2.2.2 sessionGatheringEmail
     "actually, book a meeting with Sam tomorrow at 3pm" oracleMeetingEmpty
     (by decide) (by decide) (by decide) (by decide) (by decide)⟩

/-! ## Claim C3 -/

/-- **C3** (amended): for a turn classified to a task intent, the merged
field map takes the newly extracted value of a field when one is present;
when the new extraction has no value for a field, the merged map retains
the value from the most recent prior turn of that intent *among the five
most recent logged turns* (the implementation reads history with
`get_conversation_history(5)`). -/
theorem C3_merge_retains_recent_window (log : List SavedTurn) (i : Intent)
    (o : TurnOracle) (F : String) :
    (eget (extracted_entities i o) F = none →
       eget (extract_entities_with_context log i o) F = lastValid (lastN 5 log) i F) ∧
    (∀ v, eget (extracted_entities i o) F = some v →
       eget (extract_entities_with_context log i o) F = some v) := by
  constructor
  · intro h; rw [eget_merge, h]
  · intro v h; rw [eget_merge, h]

theorem C3_witness :
    eget (extracted_entities Intent.send_email oracleEmailBody) "recipient" = none ∧
    eget (extract_entities_with_context sessionAwaitingEmail.log Intent.send_email
        oracleEmailBody) "recipient" =
      lastValid (lastN 5 sessionAwaitingEmail.log) Intent.send_email "recipient" ∧
    lastValid (lastN 5 sessionAwaitingEmail.log) Intent.send_email "recipient" =
      some "sam@example.com" ∧
    eget (extract_entities_with_context sessionAwaitingEmail.log Intent.send_email
        oracleEmailBody) "body" = some "bye" :=
  ⟨by decide,
   (C3_merge_retains_recent_window sessionAwaitingEmail.log Intent.send_email
      oracleEmailBody "recipient").1 (by decide),
   by decide,
   (C3_merge_retains_recent_window sessionAwaitingEmail.log Intent.send_email
      oracleEmailBody "body").2 "bye" (by decide)⟩

/-- The first seven turns of the C3 counterexample run: one
`schedule_meeting` turn that records a title, then six chitchat turns. -/
def c3FirstTurns : List (String × TurnOracle) :=
  [("book a review meeting", oracleMeetingTitle),
   ("how are you", oracleChitchat),
   ("how are you", oracleChitchat),
   ("how are you", oracleChitchat),
   ("how are you", oracleChitchat),
   ("how are you", oracleChitchat),
   ("how are you", oracleChitchat)]

/-- The session after those seven turns. -/
def c3Session : Session := runTurns initialSession c3FirstTurns

/-- **C3** (counterexample): on the eighth turn, again classified
`schedule_meeting` with an extraction carrying no `title`, the claim says
the title from the most recent prior `schedule_meeting` turn (turn one,
"Budget review") is retained — but the six intervening chitchat turns have
pushed that turn out of the five-record history window, so the merged map
has no `title` at all. -/
theorem C3_counterexample :
    lastValid c3Session.log Intent.schedule_meeting "title" = some "Budget review" ∧
    eget (extracted_entities Intent.schedule_meeting oracleMeetingEmpty) "title" = none ∧
    eget ((process_message c3Session "please book it now" oracleMeetingEmpty).2.state.entities)
      "title" = none ∧
    (process_message c3Session "please book it now" oracleMeetingEmpty).2.state.intent =
      some Intent.schedule_meeting ∧
    Reachable (process_message c3Session "please book it now" oracleMeetingEmpty).2 :=
  ⟨by decide, by decide, by decide, by decide,
   Reachable.step "please book it now" oracleMeetingEmpty
     (reachable_runTurns initialSession Reachable.init c3FirstTurns)⟩

/-! ## Claim C6 -/

/-- **C6** (counterexample): a failing outbox file write is *not* caught —
`execute_action` wraps only the `save_action` update in `try/except`,
while the `open(...)`/`json.dump` write to `outbox/` is unguarded — so the
call raises instead of returning the success message, for either task
intent, even on a complete field map. -/
theorem C6_counterexample :
    (execute_action (some Intent.send_email)
       [("recipient", "sam@example.com"), ("body", "hello")] false true).msg = none ∧
    (execute_action (some Intent.schedule_meeting)
       [("title", "Budget review"), ("date", "2024-03-11"), ("time", "3pm"),
        ("participants", "sam@example.com")] false true).msg = none :=
  ⟨rfl, rfl⟩

/-- **C6** (amended): `execute_action` never fails the user-visible turn
*provided the outbox file write succeeds*: a failure of the action-log
write (`save_action`) is caught and merely suppresses the log record — the
returned message is the same as on a fully successful run. -/
theorem C6_exec_best_effort (i : Intent) (e : Entities) (sf : Bool) :
    ((execute_action (some i) e sf false).msg).isSome = true ∧
    (execute_action (some i) e sf false).msg =
      (execute_action (some i) e false false).msg ∧
    (execute_action (some i) e true false).actionLog = [] := by
  cases i <;> cases sf <;> exact ⟨rfl, rfl, rfl⟩

/-! ## Claim C8 -/

/-- **C8** (counterexample): when no literal form matches and the general
fallback fails, the normalizer returns the *lower-cased, stripped* input,
not the original string verbatim. -/
theorem C8_counterexample :
    parse_date "Sometime Nice " 19786 noDateutil = "sometime nice" ∧
    "sometime nice" ≠ "Sometime Nice " :=
  ⟨by decide, by decide⟩

/-- **C8** (amended): for a date expression whose lower-cased, stripped
form matches none of the recognized literal forms, and on which the
general date-parsing fallback also fails, the normalizer does not fail: it
returns the lower-cased, stripped input (hence the input verbatim whenever
the input is already lower-case with no surrounding whitespace). -/
theorem C8_fallback_returns_processed (s : String) (today : Nat)
    (fb : String → Option Nat)
    (h1 : (strTrim (strLower s) == "today") = false)
    (h2 : (strTrim (strLower s) == "tomorrow") = false)
    (h3 : strContains (strTrim (strLower s)) "next week" = false)
    (h4 : strContains (strTrim (strLower s)) "monday" = false)
    (h5 : fb (strTrim (strLower s)) = none) :
    parse_date s today fb = strTrim (strLower s) := by
  simp only [parse_date, h1, h2, h3, h4, h5, Bool.false_eq_true, if_false]

theorem C8_witness :
    parse_date "Sometime  Pleasant" 19786 noDateutil = "sometime  pleasant" :=
  C8_fallback_returns_processed "Sometime  Pleasant" 19786 noDateutil
    (by decide) (by decide) (by decide) (by decide) rfl

/-! ## Claim C9 -/

/-- **C9**: `get_missing_fields` returns, in schema order, exactly the
required fields that are absent or whitespace-blank — `[title, date, time,
participants]` for `schedule_meeting` and `[recipient, body]` for
`send_email` — and `get_next_missing_field_question` returns the schema
question for the first missing field, and none when nothing is missing. -/
theorem C9_missing_fields_spec (e : Entities) :
    get_missing_fields .schedule_meeting e =
      ["title", "date", "time", "participants"].filter (fun f => isBlank (eget e f)) ∧
    get_missing_fields .send_email e =
      ["recipient", "body"].filter (fun f => isBlank (eget e f)) ∧
    (∀ i : Intent, get_next_missing_field_question i [] = none) ∧
    (∀ f rest, get_missing_fields .schedule_meeting e = f :: rest →
       get_next_missing_field_question .schedule_meeting (f :: rest) =
         meeting_questions f ∧ (meeting_questions f).isSome = true) ∧
    (∀ f rest, get_missing_fields .send_email e = f :: rest →
       get_next_missing_field_question .send_email (f :: rest) =
         email_questions f ∧ (email_questions f).isSome = true) := by
  refine ⟨get_missing_fields_meeting e, get_missing_fields_email e,
    fun i => by cases i <;> rfl, ?_, ?_⟩
  · intro f rest hm
    refine ⟨rfl, ?_⟩
    have h := get_next_question_isSome .schedule_meeting e (by rw [hm]; simp)
    rw [hm] at h
    exact h
  · intro f rest hm
    refine ⟨rfl, ?_⟩
    have h := get_next_question_isSome .send_email e (by rw [hm]; simp)
    rw [hm] at h
    exact h

theorem C9_witness :
    get_missing_fields .schedule_meeting [("title", " "), ("date", "2024-03-11")] =
      ["title", "time", "participants"] ∧
    get_missing_fields .send_email [("recipient", "sam@example.com"), ("body", "hello")]
      = [] ∧
    get_next_missing_field_question .send_email [] = none ∧
    get_next_missing_field_question .schedule_meeting ["title", "time", "participants"]
      = meeting_questions "title" ∧
    (meeting_questions "title").isSome = true := by
  have h1 := C9_missing_fields_spec [("title", " "), ("date", "2024-03-11")]
  have h2 := C9_missing_fields_spec
    [("recipient", "sam@example.com"), ("body", "hello")]
  refine ⟨?_, ?_, h2.2.2.1 .send_email, ?_, ?_⟩
  · rw [h1.1]; decide
  · rw [h2.2.1]; decide
  · exact (h1.2.2.2.1 "title" ["time", "participants"] (by rw [h1.1]; decide)).1
  · exact (h1.2.2.2.1 "title" ["time", "participants"] (by rw [h1.1]; decide)).2

/-! ## Claim C7 -/

/-- **C7** (amended): for every reference day, normalizing a string whose
lower-cased, stripped form contains "monday" *but not "next week"* (the
"next week" rule is checked first and wins on overlap) returns the ISO
date of the day `7 - weekday(reference)` days ahead — which is a Monday,
strictly after the reference day, at most seven days ahead; in particular
a Monday reference advances a full seven days. -/
theorem C7_monday_next_occurrence (s : String) (today : Nat)
    (fb : String → Option Nat)
    (hmon : strContains (strTrim (strLower s)) "monday" = true)
    (hnw : strContains (strTrim (strLower s)) "next week" = false) :
    parse_date s today fb = isoOf (today + (7 - weekday today)) ∧
    weekday (today + (7 - weekday today)) = 0 ∧
    0 < 7 - weekday today ∧ 7 - weekday today ≤ 7 := by
  have hw : weekday today < 7 := Nat.mod_lt _ (by norm_num)
  have h1 : (strTrim (strLower s) == "today") = false := by
    cases h : strTrim (strLower s) == "today"
    · rfl
    · exfalso
      have he : strTrim (strLower s) = "today" := eq_of_beq h
      rw [he] at hmon
      exact absurd hmon (by decide)
  have h2 : (strTrim (strLower s) == "tomorrow") = false := by
    cases h : strTrim (strLower s) == "tomorrow"
    · rfl
    · exfalso
      have he : strTrim (strLower s) = "tomorrow" := eq_of_beq h
      rw [he] at hmon
      exact absurd hmon (by decide)
  refine ⟨?_, ?_, ?_, ?_⟩
  · simp only [parse_date, h1, h2, hnw, hmon, Bool.false_eq_true, if_false, if_true]
    congr 1
    have hle : (0 : Int) - (weekday today : Int) ≤ 0 := by omega
    rw [if_pos hle]
    omega
  · simp only [weekday]
    omega
  · simp only [weekday]
    omega
  · simp only [weekday]
    omega

theorem C7_witness :
    parse_date "monday" 19786 noDateutil = isoOf (19786 + (7 - weekday 19786)) ∧
    weekday (19786 + (7 - weekday 19786)) = 0 ∧
    isoOf 19786 = "2024-03-04" ∧
    weekday 19786 = 0 ∧
    isoOf (19786 + (7 - weekday 19786)) = "2024-03-11" :=
  ⟨(C7_monday_next_occurrence "monday" 19786 noDateutil (by decide) (by decide)).1,
   (C7_monday_next_occurrence "monday" 19786 noDateutil (by decide) (by decide)).2.1,
   by decide, by decide, by decide⟩

/-- **C7** (counterexample): "next week monday" contains "monday", yet for
the Wednesday reference 2024-03-06 (day 19788) the normalizer returns
2024-03-13 — the reference plus seven days, a Wednesday — not the next
Monday 2024-03-11, because the "next week" rule is checked first. -/
theorem C7_counterexample :
    strContains (strTrim (strLower "next week monday")) "monday" = true ∧
    isoOf 19788 = "2024-03-06" ∧ weekday 19788 = 2 ∧
    parse_date "next week monday" 19788 noDateutil = "2024-03-13" ∧
    isoOf (19788 + (7 - weekday 19788)) = "2024-03-11" ∧
    weekday (19788 + 7) ≠ 0 ∧
    parse_date "next week monday" 19788 noDateutil ≠
      isoOf (19788 + (7 - weekday 19788)) :=
  ⟨by decide, by decide, by decide, by decide, by decide, by decide, by decide⟩

/-! ## Claim C10 -/

/-- **C10**: from an awaiting-confirmation state, an unrecognized reply
that signals no intent switch and is classified as chitchat leaves
`awaiting_confirmation` set while overwriting the committed intent with
`chitchat` (fields untouched); a subsequent affirmative reply then invokes
the executor with intent `chitchat`, which matches neither task branch:
the turn returns the generic "Action completed." message, writes no action
record and no outbox file, and resets the state — the originally pending
action is silently dropped, never executed. -/
theorem C10_pending_dropped (sess : Session) (msg : String) (o : TurnOracle)
    (ha : sess.state.awaiting_confirmation = true)
    (hna : isAffirmative msg = false)
    (hnn : isNegative msg = false)
    (hd : detect_intent_change msg sess.state.intent o.switchLLM = false)
    (hc : o.classify = .chitchat) :
    ((process_message sess msg o).1 = some (handle_chitchat msg) ∧
     (process_message sess msg o).2.state.awaiting_confirmation = true ∧
     (process_message sess msg o).2.state.intent = some Intent.chitchat ∧
     (process_message sess msg o).2.state.entities = sess.state.entities) ∧
    (∀ (msg2 : String) (o2 : TurnOracle),
       isAffirmative msg2 = true →
       (process_message (process_message sess msg o).2 msg2 o2).1 =
         some "Action completed." ∧
       (process_message (process_message sess msg o).2 msg2 o2).2.state = initState ∧
       (process_message (process_message sess msg o).2 msg2 o2).2.actions =
         (process_message sess msg o).2.actions ∧
       (process_message (process_message sess msg o).2 msg2 o2).2.outbox =
         (process_message sess msg o).2.outbox) := by
  have hstep : process_message sess msg o =
      (some (handle_chitchat msg),
       save_conversation
         { sess with state := { sess.state with intent := some Intent.chitchat } }
         msg (handle_chitchat msg) (some Intent.chitchat) [] false) := by
    simp only [process_message, ha, hna, hnn, Bool.true_and, Bool.and_false,
      Bool.false_eq_true, if_false, processFresh, hd, Bool.and_false,
      classifyAndRespond, hc]
  constructor
  · rw [hstep]
    exact ⟨rfl, ha, rfl, rfl⟩
  · intro msg2 o2 ha2
    rw [hstep]
    simp only [process_message, save_conversation, ha, ha2, Bool.and_self, if_pos,
      confirmYes, execute_action, List.append_nil]
    refine ⟨?_, ?_, ?_, ?_⟩ <;> first | rfl | trivial

theorem C10_witness :
    (process_message sessionAwaitingEmail "maybe" oracleChitchat).2.state.awaiting_confirmation
      = true ∧
    (process_message sessionAwaitingEmail "maybe" oracleChitchat).2.state.intent
      = some Intent.chitchat ∧
    (process_message (process_message sessionAwaitingEmail "maybe" oracleChitchat).2
       "yes" oracleChitchat).1 = some "Action completed." ∧
    (process_message (process_message sessionAwaitingEmail "maybe" oracleChitchat).2
       "yes" oracleChitchat).2.actions =
      (process_message sessionAwaitingEmail "maybe" oracleChitchat).2.actions ∧
    (process_message (process_message sessionAwaitingEmail "maybe" oracleChitchat).2
       "yes" oracleChitchat).2.outbox =
      (process_message sessionAwaitingEmail "maybe" oracleChitchat).2.outbox ∧
    (process_message (process_message sessionAwaitingEmail "maybe" oracleChitchat).2
       "yes" oracleChitchat).2.state = initState := by
  have h := C10_pending_dropped sessionAwaitingEmail "maybe" oracleChitchat
    (by decide) (by decide) (by decide) (by decide) rfl
  exact ⟨h.1.2.1, h.1.2.2.1,
    (h.2 "yes" oracleChitchat (by decide)).1,
    (h.2 "yes" oracleChitchat (by decide)).2.2.1,
    (h.2 "yes" oracleChitchat (by decide)).2.2.2,
    (h.2 "yes" oracleChitchat (by decide)).2.1⟩
